import Mathlib

/-!
Verification of the filtering engine of scanpy-scripts
(`scanpy_scripts/lib/_filter.py`) against its natural-language
specification.

The embedding models pandas data frames as tables of typed columns.
Numeric cell values are rationals; dataframe dtypes are modelled by the
information `_filter.py` inspects: the numpy `kind` character and, for
object columns, whether the dtype is a pandas category dtype whose
category set is boolean.
-/

/-- Map a fallible function over a list, failing if any element fails
(the `Option` specialization of `mapM`). -/
def optMapList (f : α → Option β) : List α → Option (List β)
  | [] => some []
  | x :: xs =>
    match f x, optMapList f xs with
    | some y, some ys => some (y :: ys)
    | _, _ => none

/-- Python `s.startswith(pre)`, on the character data of the strings. -/
def pyStartswith (s pre : String) : Bool :=
  pre.1.isPrefixOf s.1

/-- Python `s[:n]` for strings, on the character data. -/
def strTake (s : String) (n : Nat) : String :=
  ⟨s.1.take n⟩

/-- Python `s[n:]` for strings, on the character data. -/
def strDrop (s : String) (n : Nat) : String :=
  ⟨s.1.drop n⟩

/-- The longest head of `s` whose characters all satisfy `p`. -/
def strTakeWhile (s : String) (p : Char → Bool) : String :=
  ⟨s.1.takeWhile p⟩

/-- Python `s.rstrip()`: remove trailing whitespace. -/
def strRstrip (s : String) : String :=
  ⟨(s.1.reverse.dropWhile Char.isWhitespace).reverse⟩

/-- A cell value of a dataframe column. -/
inductive Value
  | num (q : ℚ)
  | str (s : String)
  | bool (b : Bool)
  deriving DecidableEq, Repr

/-- The dtype information inspected by `_get_attributes`:
`intK`/`floatK`/`boolK` have numpy kinds i/f/b; `objectK` is a plain
object column (kind O); `categoryK b` is a pandas category dtype
(kind O, `dtype.name == 'category'`) whose `categories.is_boolean()`
is `b`; `otherK` stands for any other numpy kind. -/
inductive Dtype
  | intK
  | floatK
  | boolK
  | objectK
  | categoryK (boolCats : Bool)
  | otherK
  deriving DecidableEq, Repr

/-- The numpy `dtype.kind` character of a modelled dtype. -/
def Dtype.kind : Dtype → Char
  | .intK => 'i'
  | .floatK => 'f'
  | .boolK => 'b'
  | .objectK => 'O'
  | .categoryK _ => 'O'
  | .otherK => '?'

/-- Whether the dtype is a category dtype whose categories are boolean
(`dtype.name == 'category' and dtype.categories.is_boolean()`). -/
def Dtype.catBoolean : Dtype → Bool
  | .categoryK b => b
  | _ => false

/-- A dataframe column: its dtype and its cell values (one per row). -/
structure Column where
  dtype : Dtype
  values : List Value
  deriving DecidableEq, Repr

/-- A dataframe (`adata.obs` or `adata.var`): a row count, row index
labels, and named columns in order. -/
structure Table where
  nrows : Nat
  index : List String
  cols : List (String × Column)
  deriving DecidableEq, Repr

/-- Column names of a table (`df.columns` / `df.keys()`). -/
def Table.keys (t : Table) : List String :=
  t.cols.map (fun p => p.1)

/-- Look up a column by name (first match, as in a dataframe). -/
def Table.lookupCol (t : Table) (name : String) : Option Column :=
  (t.cols.find? (fun p => p.1 == name)).map (fun p => p.2)

/-- Python `df[name] = values`: append a new column (call sites guard on the
name being absent). -/
def Table.addCol (t : Table) (name : String) (c : Column) : Table :=
  { t with cols := t.cols ++ [(name, c)] }

/-- An annotated dataset: cell table `obs`, feature table `var`, and
the shared matrix `X` (rows aligned with `obs`, columns with `var`). -/
structure AnnData where
  obs : Table
  var : Table
  X : List (List ℚ)
  deriving DecidableEq, Repr

/-- Keep the entries of `xs` at the positions where the boolean mask is
true (numpy boolean indexing). -/
def maskFilter (m : List Bool) (xs : List α) : List α :=
  ((m.zip xs).filter (fun p => p.1)).map (fun p => p.2)

/-- Subset a table's rows by a boolean mask (`_inplace_subset_obs` /
`_inplace_subset_var` on one table). -/
def Table.subset (t : Table) (m : List Bool) : Table :=
  { nrows := m.count true
    index := maskFilter m t.index
    cols := t.cols.map (fun p => (p.1, { p.2 with values := maskFilter m p.2.values })) }

/-- The three classification sets of one table of the attribute
catalog. -/
structure KindSets where
  numerical : List String
  categorical : List String
  boolS : List String
  deriving DecidableEq, Repr

/-- The attribute catalog built by `_get_attributes`: one `KindSets`
per table, keyed `'c'` (cells) and `'g'` (genes). -/
structure Attributes where
  c : KindSets
  g : KindSets
  deriving DecidableEq, Repr

/-- Select a table of the catalog by its tag (`attributes[cond_cat]`);
call sites only use tags `"c"` and `"g"`. -/
def Attributes.table (a : Attributes) (tag : String) : KindSets :=
  if tag == "c" then a.c else a.g

/-- Select a classification set by its key (`attributes[...][dtype]`);
call sites only use `"numerical"` and `"categorical"`. -/
def KindSets.get (k : KindSets) (dtype : String) : List String :=
  if dtype == "numerical" then k.numerical
  else if dtype == "categorical" then k.categorical
  else k.boolS

/-- Names of columns whose numpy kind is `i` or `f` (the `numerical`
branch of the classification loop of `_get_attributes`). -/
def classNumerical (cols : List (String × Column)) : List String :=
  (cols.filter (fun p => p.2.dtype.kind == 'i' || p.2.dtype.kind == 'f')).map (fun p => p.1)

/-- Names of columns whose numpy kind is `O` (the `categorical` branch
of the classification loop of `_get_attributes`). -/
def classCategorical (cols : List (String × Column)) : List String :=
  (cols.filter (fun p => p.2.dtype.kind == 'O')).map (fun p => p.1)

/-- Names of columns classified boolean: explicit kind `b`, or a
category dtype with boolean category set (which the loop also places
in `categorical`). -/
def classBool (cols : List (String × Column)) : List String :=
  (cols.filter (fun p => p.2.dtype.kind == 'b' || p.2.dtype.catBoolean)).map (fun p => p.1)

/-- The synthetic cell-table numerical attribute registered for a
boolean feature flag `attr`: `pct_counts_<attr>`, marked with a
trailing `*` when that column does not yet exist on `obs`. -/
def pctName (obsKeys : List String) (attr : String) : String :=
  let attr2 := "pct_counts_" ++ attr
  if obsKeys.contains attr2 then attr2 else attr2 ++ "*"

/-- Embeds `_get_attributes(adata)`: classify each column of `obs` and `var`
by dtype kind, seed `categorical` with the pseudo-attribute `index`,
then extend the numerical sets with the synthetic attribute names. -/
def getAttributes (adata : AnnData) : Attributes :=
  let cNum := classNumerical adata.obs.cols
  let cCat := "index" :: classCategorical adata.obs.cols
  let cBool := classBool adata.obs.cols
  let gNum := classNumerical adata.var.cols
  let gCat := "index" :: classCategorical adata.var.cols
  let gBool := classBool adata.var.cols
  { c :=
      { numerical :=
          cNum ++ ["n_genes", "n_counts"] ++ gBool.map (pctName adata.obs.keys)
        categorical := cCat
        boolS := cBool }
    g :=
      { numerical := gNum ++ ["n_cells", "n_counts", "mean_counts", "pct_dropout_by_counts"]
        categorical := gCat
        boolS := gBool } }

/-- Embeds `_attributes_exists(name, attributes, dtype)`: resolve a possibly
table-qualified attribute name against one classification kind,
returning `(found, cond_cat, cond_name)`. -/
def attributesExists (name : String) (attrs : Attributes) (dtype : String) :
    Nat × String × String :=
  if pyStartswith name "c:" || pyStartswith name "g:" then
    let condCat := strTake name 1
    let condName := strDrop name 2
    (if ((attrs.table condCat).get dtype).contains condName then 1 else 0, condCat, condName)
  else
    let condCat :=
      (if (attrs.c.get dtype).contains name then "c" else "") ++
      (if (attrs.g.get dtype).contains name then "g" else "")
    (condCat.length, condCat, name)

/-- The digits of a decimal numeral as a natural number (`int(...)` on
the digits captured by the pattern). -/
def digitsToNat (s : String) : Nat :=
  s.1.foldl (fun a c => a * 10 + (c.toNat - 48)) 0

/-- The anchored pattern `pct_counts_in_top_(?P<n>\d+)_genes`: the
string must be the fixed 18-character head, a nonempty digit run, and
the fixed tail; returns the captured `n`. -/
def ptMatch (s : String) : Option Nat :=
  if pyStartswith s "pct_counts_in_top_" then
    let rest := strDrop s 18
    let ds := strTakeWhile rest Char.isDigit
    if 0 < ds.length && strDrop rest ds.length == "_genes" then some (digitsToNat ds)
    else none
  else none

/-- The anchored pattern `pct_counts_(?P<qc_var>\S+)`: the fixed
11-character head followed by a nonempty whitespace-free remainder;
returns the captured `qc_var`. -/
def qvMatch (s : String) : Option String :=
  if pyStartswith s "pct_counts_" then
    let rest := strDrop s 11
    if 0 < rest.length && rest.1.all (fun c => !c.isWhitespace) then some rest
    else none
  else none

/-- The per-kind lists of one table of the compiled conditions dict
(the `bool` list exists in the source but is never appended to). -/
structure CondSets where
  numerical : List (String × ℚ × ℚ)
  categorical : List (String × List String)
  boolS : List (String × List String)
  deriving DecidableEq, Repr

/-- The compiled conditions dict, keyed `'c'` and `'g'`. -/
structure Conditions where
  c : CondSets
  g : CondSets
  deriving DecidableEq, Repr

/-- The append `conditions[cond_cat]['numerical'].append(...)`; reachable call
sites only pass tags `"c"` and `"g"`. -/
def Conditions.addNum (cs : Conditions) (tag : String) (e : String × ℚ × ℚ) : Conditions :=
  if tag == "c" then { cs with c := { cs.c with numerical := cs.c.numerical ++ [e] } }
  else if tag == "g" then { cs with g := { cs.g with numerical := cs.g.numerical ++ [e] } }
  else cs

/-- The append `conditions[cond_cat]['categorical'].append(...)`; reachable call
sites only pass tags `"c"` and `"g"`. -/
def Conditions.addCat (cs : Conditions) (tag : String) (e : String × List String) : Conditions :=
  if tag == "c" then { cs with c := { cs.c with categorical := cs.c.categorical ++ [e] } }
  else if tag == "g" then { cs with g := { cs.g with categorical := cs.g.categorical ++ [e] } }
  else cs

/-- The mutable state of the two loops of `_get_filter_conditions`. -/
structure CompileState where
  conditions : Conditions
  pct_top : List Nat
  qc_vars : List String
  deriving DecidableEq, Repr

/-- One iteration of the `for name, vmin, vmax in param` loop of
`_get_filter_conditions`. -/
def stepParam (attrs : Attributes) (st : CompileState) (p : String × ℚ × ℚ) : CompileState :=
  let (name, vmin, vmax) := p
  let (found, condCat, condName) := attributesExists name attrs "numerical"
  let pt := ptMatch condName
  let qv := qvMatch condName
  if 1 < found then st
  else
    let next? : Option (CompileState × String) :=
      if found < 1 then
        match pt with
        | some n => some ({ st with pct_top := st.pct_top ++ [n] }, "c")
        | none =>
          match qv with
          | some v => some ({ st with qc_vars := st.qc_vars ++ [v] }, "c")
          | none => none
      else some (st, condCat)
    match next? with
    | none => st
    | some (st1, cat) =>
      let b : ℚ × ℚ := if pt.isSome || qv.isSome then (vmin * 100, vmax * 100) else (vmin, vmax)
      { st1 with conditions := st1.conditions.addNum cat (condName, b.1, b.2) }

/-- Categorical/subset values: supplied inline, or read from an
external line-delimited source (a file handle in the source). -/
inductive CatValues
  | inline (vs : List String)
  | fileSrc (content : String)
  deriving DecidableEq, Repr

/-- Materialize the allowed values: inline lists are kept as-is, file
contents are `read().rstrip().split('\n')`. -/
def CatValues.materialize : CatValues → List String
  | .inline vs => vs
  | .fileSrc content => (strRstrip content).splitOn "\n"

/-- One iteration of the `for name, values in category + subset` loop
of `_get_filter_conditions`. -/
def stepCat (attrs : Attributes) (st : CompileState) (p : String × CatValues) : CompileState :=
  let (name, values) := p
  let (found, condCat, condName) := attributesExists name attrs "categorical"
  if 1 < found then st
  else if found == 1 then
    { st with conditions := st.conditions.addCat condCat (condName, values.materialize) }
  else st

/-- Embeds `_get_filter_conditions(attributes, param, category, subset)`:
compile the raw specs into per-table predicate lists and the derived
metric requests; the top-N list is returned through `sorted(...)`. -/
def getFilterConditions (attrs : Attributes) (param : List (String × ℚ × ℚ))
    (category subset : List (String × CatValues)) :
    Conditions × List String × List Nat :=
  let st0 : CompileState := ⟨⟨⟨[], [], []⟩, ⟨[], [], []⟩⟩, [], []⟩
  let st1 := param.foldl (stepParam attrs) st0
  let st2 := (category ++ subset).foldl (stepCat attrs) st1
  (st2.conditions, st2.qc_vars, List.insertionSort (fun m n => m ≤ n) st2.pct_top)

/-- The access `getattr(df, name).str` as used by the mito block: the row index
for `"index"`, otherwise the named column when it exists and holds
string values; `none` models the `AttributeError` the source catches
(missing attribute, or the `.str` accessor on non-string data). -/
def Table.getStrCol (t : Table) (name : String) : Option (List String) :=
  if name == "index" then some t.index
  else match t.lookupCol name with
    | some col =>
      optMapList (fun v => match v with | .str s => some s | _ => none) col.values
    | none => none

/-- The mito block of `filter_anndata` (lines 33-46): when `var` has no
`mito` column and a gene-name selector is given, flag the features
whose name starts with `MT-`; add the boolean `mito` column only if at
least one matches, warn and skip otherwise. -/
def mitoStep (adata : AnnData) (gene_name : String) : AnnData :=
  if !(adata.var.keys.contains "mito") && gene_name != "" then
    match adata.var.getStrCol gene_name with
    | some names =>
      let kMito := names.map (fun s => pyStartswith s "MT-")
      if kMito.any id then
        { adata with var := adata.var.addCol "mito" ⟨Dtype.boolK, kMito.map Value.bool⟩ }
      else adata
    | none => adata
  else adata

/-- Modelled from the spec: the external collaborators
`sc.pp.filter_cells` / `sc.pp.filter_genes` (scanpy, not part of this
repository) are "invoked idempotently (a no-op if the column is already
present)" so that the synthetic base columns exist; with a zero
threshold they remove no rows and only add the named per-row statistic
column. -/
def seedCol (t : Table) (name : String) (vals : List ℚ) : Table :=
  if t.keys.contains name then t else t.addCol name ⟨Dtype.floatK, vals.map Value.num⟩

/-- Modelled from the spec: the four idempotent seeding calls of
`filter_anndata` (lines 55-62), computing `n_genes`/`n_counts` per cell
and `n_cells`/`n_counts` per feature from the matrix. -/
def seedAll (a : AnnData) : AnnData :=
  let obs1 := seedCol a.obs "n_genes"
    (a.X.map (fun r => ((r.filter (fun q => q != 0)).length : ℚ)))
  let obs2 := seedCol obs1 "n_counts" (a.X.map (fun r => r.sum))
  let var1 := seedCol a.var "n_cells"
    ((List.range a.var.nrows).map (fun j => ((a.X.filter (fun r => r.getD j 0 != 0)).length : ℚ)))
  let var2 := seedCol var1 "n_counts"
    ((List.range a.var.nrows).map (fun j => (a.X.map (fun r => r.getD j 0)).sum))
  { a with obs := obs2, var := var2 }

/-- Modelled from the spec: the external QC-computation collaborator
`sc.pp.calculate_qc_metrics` (scanpy, not part of this repository),
which "mutates CellTable in place by adding one percentage-of-total
column per requested feature group and one percentage-of-top-N column
per requested N". -/
def calculateQcMetrics (a : AnnData) (qcVars : List String) (pctTop : List Nat) : AnnData :=
  let groupPct (v : String) : List ℚ :=
    let flags : List Bool :=
      match a.var.lookupCol v with
      | some col => col.values.map (fun x => x == Value.bool true)
      | none => List.replicate a.var.nrows false
    a.X.map (fun r =>
      let tot := r.sum
      let part := (((r.zip flags).filter (fun p => p.2)).map (fun p => p.1)).sum
      if tot == 0 then 0 else 100 * part / tot)
  let topPct (n : Nat) : List ℚ :=
    a.X.map (fun r =>
      let tot := r.sum
      let top := ((List.insertionSort (fun x y => y ≤ x) r).take n).sum
      if tot == 0 then 0 else 100 * top / tot)
  let obs1 := qcVars.foldl (fun t v => seedCol t ("pct_counts_" ++ v) (groupPct v)) a.obs
  let obs2 := pctTop.foldl
    (fun t n => seedCol t ("pct_counts_in_top_" ++ toString n ++ "_genes") (topPct n)) obs1
  { a with obs := obs2 }

/-- The numeric view of a cell value used by `attr >= vmin` in numpy:
numbers are themselves, booleans are 0/1, strings raise (`none`). -/
def Value.toQ : Value → Option ℚ
  | .num q => some q
  | .bool b => some (if b then 1 else 0)
  | .str _ => none

/-- The lookup `adata.obs[name]` (or `adata.var[name]`) as a numeric column;
`none` models the exception raised when the column is missing or not
numerically comparable. -/
def Table.numColQ (t : Table) (name : String) : Option (List ℚ) :=
  (t.lookupCol name).bind (fun col => optMapList Value.toQ col.values)

/-- The access `getattr(df, name)` as used by the categorical mask loop: the row
index labels for `"index"`, otherwise the named column; `none` models
the `AttributeError` of a missing attribute. -/
def Table.getattrVals (t : Table) (name : String) : Option (List Value) :=
  if name == "index" then some (t.index.map Value.str)
  else (t.lookupCol name).map (fun c => c.values)

/-- Pandas `Series.isin(values)` on one cell value, with the condition values
materialized as strings. -/
def valIn (v : Value) (vals : List String) : Bool :=
  match v with
  | .str s => vals.contains s
  | _ => false

/-- One numerical-range narrowing step of the mask loop:
`k_cell = k_cell & (attr >= vmin) & (attr <= vmax)` (inclusive bounds);
fails when the column is missing or not numerically comparable. -/
def numStep (t : Table) (k : List Bool) (e : String × ℚ × ℚ) : Option (List Bool) :=
  match t.numColQ e.1 with
  | some vs => some (k.zipWith (fun b q => b && decide (e.2.1 ≤ q) && decide (q ≤ e.2.2)) vs)
  | none => none

/-- One categorical narrowing step of the mask loop:
`k_cell = k_cell & attr.isin(values)`. -/
def catStep (t : Table) (k : List Bool) (e : String × List String) : Option (List Bool) :=
  match t.getattrVals e.1 with
  | some vs => some (k.zipWith (fun b v => b && valIn v e.2) vs)
  | none => none

/-- The mask-building loops of `filter_anndata` for one table: start
from an all-true vector and conjoin each numerical range (inclusive
bounds) and each categorical membership predicate. -/
def buildMask (t : Table) (cs : CondSets) : Option (List Bool) :=
  match List.foldlM (numStep t) (List.replicate t.nrows true) cs.numerical with
  | some k1 => List.foldlM (catStep t) k1 cs.categorical
  | none => none

/-- The two possible returns of `filter_anndata`: the status code `0`
of listing mode, or the mutated dataset itself. -/
inductive FilterReturn
  | status (code : Nat)
  | dataset
  deriving DecidableEq, Repr

/-- Embeds `filter_anndata`, parameterized by the external QC-computation
collaborator; the returned `AnnData` is the dataset's final state (it
is mutated in place in the source) and `FilterReturn` tells which value
the function returned; `none` models an uncaught exception in the mask
loops. -/
def filterAnndataWith (qcMetrics : AnnData → List String → List Nat → AnnData)
    (adata : AnnData) (gene_name : String) (list_attr : Bool)
    (param : List (String × ℚ × ℚ)) (category subset : List (String × CatValues)) :
    Option (AnnData × FilterReturn) :=
  let a1 := mitoStep adata gene_name
  let attrs := getAttributes a1
  if list_attr then some (a1, .status 0)
  else
    let (conds, qcVars, pctTop) := getFilterConditions attrs param category subset
    let a2 := seedAll a1
    let a3 :=
      if qcVars != ([] : List String) || pctTop != ([] : List Nat) then
        qcMetrics a2 qcVars (if pctTop == ([] : List Nat) then [50] else pctTop)
      else a2
    match buildMask a3.obs conds.c, buildMask a3.var conds.g with
    | some kCell, some kGene =>
      let a4 : AnnData := { a3 with obs := a3.obs.subset kCell, X := maskFilter kCell a3.X }
      let a5 : AnnData := { a4 with var := a4.var.subset kGene, X := a4.X.map (maskFilter kGene) }
      some (a5, .dataset)
    | _, _ => none

/-- Embeds `filter_anndata` with the modelled scanpy collaborator. -/
def filterAnndata (adata : AnnData) (gene_name : String) (list_attr : Bool)
    (param : List (String × ℚ × ℚ)) (category subset : List (String × CatValues)) :
    Option (AnnData × FilterReturn) :=
  filterAnndataWith calculateQcMetrics adata gene_name list_attr param category subset

/-
The rational-number operations of Batteries are `@[irreducible]` for
elaboration performance; unsealing them lets concrete runs of the
embedded functions be checked by `decide`.
-/
unseal Rat.add Rat.mul Rat.inv

/-! ### Example datasets -/

/-- A dataset whose cell table has one numerical column `n_counts` with
values 5, 50, 500 (the spec's mask-conjunction example). -/
def dsRange : AnnData :=
  { obs :=
      { nrows := 3, index := ["cA", "cB", "cC"],
        cols := [("n_counts", ⟨Dtype.floatK, [Value.num 5, Value.num 50, Value.num 500]⟩)] }
    var := { nrows := 1, index := ["g1"], cols := [] }
    X := [[1], [1], [1]] }

/-- A dataset whose cell table has one category-dtype column `flag`
with a boolean category set. -/
def dsCatBool : AnnData :=
  { obs :=
      { nrows := 2, index := ["x", "y"],
        cols := [("flag", ⟨Dtype.categoryK true, [Value.bool true, Value.bool false]⟩)] }
    var := { nrows := 1, index := ["g1"], cols := [] }
    X := [[1], [1]] }

/-- A dataset whose feature index contains a mitochondrial gene name
(`MT-CO1`) and whose `var` has no `mito` column. -/
def dsMito : AnnData :=
  { obs :=
      { nrows := 3, index := ["cA", "cB", "cC"],
        cols := [("n_counts", ⟨Dtype.floatK, [Value.num 5, Value.num 50, Value.num 500]⟩)] }
    var := { nrows := 2, index := ["MT-CO1", "ACTB"], cols := [] }
    X := [[1, 2], [1, 2], [1, 2]] }

/-! ### C1 -/

/-- C1, counterexample: on `dsRange` the unqualified range condition
`(n_counts, 10, 100)` does not keep only the row with value 50 — the
name `n_counts` is seeded into both tables' numerical catalogs, so the
condition is ambiguous and dropped, and all three rows survive. -/
theorem C1_counterexample :
    (filterAnndata dsRange "" false [("n_counts", 10, 100)] [] []).map
        (fun p => (p.1.obs.index, p.1.obs.nrows)) = some (["cA", "cB", "cC"], 3) ∧
    attributesExists "n_counts" (getAttributes dsRange) "numerical" =
      (2, "cg", "n_counts") := by
  decide

/-- C1, amended: the unqualified name `n_counts` is always ambiguous
(it is seeded into both numerical catalogs) and the condition is
dropped; with the table-qualified name `c:n_counts` the range condition
`(10, 100)` keeps exactly the row with value 50, bounds inclusive. -/
theorem C1_theorem :
    filterAnndata dsRange "" false [("c:n_counts", 10, 100)] [] [] =
      some
        ({ obs :=
             { nrows := 1, index := ["cB"],
               cols := [("n_counts", ⟨Dtype.floatK, [Value.num 50]⟩),
                        ("n_genes", ⟨Dtype.floatK, [Value.num 1]⟩)] }
           var :=
             { nrows := 1, index := ["g1"],
               cols := [("n_cells", ⟨Dtype.floatK, [Value.num 3]⟩),
                        ("n_counts", ⟨Dtype.floatK, [Value.num 3]⟩)] }
           X := [[1]] }, FilterReturn.dataset) := by
  decide

/-! ### C2 -/

/-- C2, counterexample: on `dsCatBool` the column `flag` (category
dtype with boolean categories) is classified into both the
`categorical` and the `boolean` set of the cell table, so the three
kind sets are not pairwise disjoint. -/
theorem C2_counterexample :
    "flag" ∈ (getAttributes dsCatBool).c.categorical ∧
    "flag" ∈ (getAttributes dsCatBool).c.boolS := by
  decide

/-! ### C3 -/

/-- C3, counterexample: two range conditions naming the same derived
metric `pct_counts_in_top_50_genes` contribute the top-N value 50
twice, and two `pct_counts_mito` conditions contribute the label
`mito` twice: the derived-metric request is not deduplicated. -/
theorem C3_counterexample :
    (getFilterConditions (getAttributes dsRange)
        [("pct_counts_in_top_50_genes", 0, 1), ("pct_counts_in_top_50_genes", 0, 1),
         ("pct_counts_mito", 0, 1), ("pct_counts_mito", 0, 1)] [] []).2 =
      (["mito", "mito"], [50, 50]) ∧
    ¬ (getFilterConditions (getAttributes dsRange)
        [("pct_counts_in_top_50_genes", 0, 1), ("pct_counts_in_top_50_genes", 0, 1),
         ("pct_counts_mito", 0, 1), ("pct_counts_mito", 0, 1)] [] []).2.2.Nodup := by
  decide

/-- C3, amended: the top-N values are returned sorted in ascending
order, but neither the top-N values nor the feature-group labels are
deduplicated — several conditions naming the same derived metric
contribute it several times. -/
theorem C3_theorem (attrs : Attributes) (param : List (String × ℚ × ℚ))
    (category subset : List (String × CatValues)) :
    List.Sorted (fun m n => m ≤ n)
      (getFilterConditions attrs param category subset).2.2 := by
  unfold getFilterConditions
  exact List.sorted_insertionSort _ _

/-! ### C4 -/

/-- C4, counterexample: invoking the entry point in listing mode on
`dsMito` returns status 0 but mutates the dataset: the feature table
gains the synthetic boolean column `mito` (the mito block runs before
the listing branch). -/
theorem C4_counterexample :
    (filterAnndata dsMito "index" true [] [] []).map
        (fun p => (p.1.var.keys, p.2)) = some (["mito"], FilterReturn.status 0) ∧
    dsMito.var.keys = [] := by
  decide

/-- The mito block changes nothing but possibly appending the boolean
`mito` column to the feature table. -/
theorem mitoStep_parts (a : AnnData) (g : String) :
    (mitoStep a g).obs = a.obs ∧ (mitoStep a g).X = a.X ∧
    (mitoStep a g).var.nrows = a.var.nrows ∧
    (mitoStep a g).var.index = a.var.index ∧
    ((mitoStep a g).var.cols = a.var.cols ∨
      ∃ vals, (mitoStep a g).var.cols = a.var.cols ++ [("mito", vals)]) := by
  unfold mitoStep
  split
  · split
    · dsimp only
      split
      · exact ⟨rfl, rfl, rfl, rfl, Or.inr ⟨_, rfl⟩⟩
      · exact ⟨rfl, rfl, rfl, rfl, Or.inl rfl⟩
    · exact ⟨rfl, rfl, rfl, rfl, Or.inl rfl⟩
  · exact ⟨rfl, rfl, rfl, rfl, Or.inl rfl⟩

/-- C4, amended: listing mode returns the status code 0 instead of the
dataset and removes no row and no column from either table; however the
mito block, which runs before the listing branch, may mutate the
dataset by appending the synthetic boolean `mito` column to the feature
table (and does nothing else). -/
theorem C4_theorem (qm : AnnData → List String → List Nat → AnnData)
    (adata : AnnData) (gene_name : String)
    (param : List (String × ℚ × ℚ)) (category subset : List (String × CatValues)) :
    filterAnndataWith qm adata gene_name true param category subset =
      some (mitoStep adata gene_name, FilterReturn.status 0) ∧
    (mitoStep adata gene_name).obs = adata.obs ∧
    (mitoStep adata gene_name).X = adata.X ∧
    (mitoStep adata gene_name).var.nrows = adata.var.nrows ∧
    (mitoStep adata gene_name).var.index = adata.var.index ∧
    ((mitoStep adata gene_name).var.cols = adata.var.cols ∨
      ∃ vals, (mitoStep adata gene_name).var.cols = adata.var.cols ++ [("mito", vals)]) := by
  exact ⟨rfl, mitoStep_parts adata gene_name⟩
/-! ### C6 -/

/-- C6: for any catalog and kind, an unqualified name (no `c:`/`g:`
head) found in exactly one table resolves with match count 1 and that
table's tag; a name found in both resolves with match count 2; a
`c:`- or `g:`-qualified name consults only the tagged table's set and
yields match count 1 or 0 accordingly. -/
theorem C6_theorem :
    (∀ (name : String) (attrs : Attributes) (dtype : String),
        pyStartswith name "c:" = false → pyStartswith name "g:" = false →
        (attrs.c.get dtype).contains name = true →
        (attrs.g.get dtype).contains name = false →
        attributesExists name attrs dtype = (1, "c", name)) ∧
    (∀ (name : String) (attrs : Attributes) (dtype : String),
        pyStartswith name "c:" = false → pyStartswith name "g:" = false →
        (attrs.c.get dtype).contains name = false →
        (attrs.g.get dtype).contains name = true →
        attributesExists name attrs dtype = (1, "g", name)) ∧
    (∀ (name : String) (attrs : Attributes) (dtype : String),
        pyStartswith name "c:" = false → pyStartswith name "g:" = false →
        (attrs.c.get dtype).contains name = true →
        (attrs.g.get dtype).contains name = true →
        attributesExists name attrs dtype = (2, "cg", name)) ∧
    (∀ (cs : List Char) (attrs : Attributes) (dtype : String),
        attributesExists ⟨'c' :: ':' :: cs⟩ attrs dtype =
          (if (attrs.c.get dtype).contains ⟨cs⟩ then 1 else 0, "c", ⟨cs⟩)) ∧
    (∀ (cs : List Char) (attrs : Attributes) (dtype : String),
        attributesExists ⟨'g' :: ':' :: cs⟩ attrs dtype =
          (if (attrs.g.get dtype).contains ⟨cs⟩ then 1 else 0, "g", ⟨cs⟩)) := by
  have hc : ("c:" : String).1 = ['c', ':'] := rfl
  have hg : ("g:" : String).1 = ['g', ':'] := rfl
  refine ⟨?_, ?_, ?_, ?_, ?_⟩
  · intro name attrs dtype h1 h2 h3 h4
    simp at h3 h4
    simp [attributesExists, h1, h2, h3, h4]
    decide
  · intro name attrs dtype h1 h2 h3 h4
    simp at h3 h4
    simp [attributesExists, h1, h2, h3, h4]
    decide
  · intro name attrs dtype h1 h2 h3 h4
    simp at h3 h4
    simp [attributesExists, h1, h2, h3, h4]
    decide
  · intro cs attrs dtype
    simp [attributesExists, pyStartswith, hc, hg, List.isPrefixOf, strTake, strDrop,
      Attributes.table]
  · intro cs attrs dtype
    simp [attributesExists, pyStartswith, hc, hg, List.isPrefixOf, strTake, strDrop,
      Attributes.table]

/-- A small concrete catalog: `a` only in the cell table's numerical
set, `b` in both tables' numerical sets. -/
def attrsW : Attributes := ⟨⟨["a", "b"], [], []⟩, ⟨["b"], [], []⟩⟩

/-- C6, witness: the resolver on the concrete catalog `attrsW`. -/
theorem C6_witness :
    attributesExists "a" attrsW "numerical" = (1, "c", "a") ∧
    attributesExists "b" attrsW "numerical" = (2, "cg", "b") ∧
    attributesExists ⟨['g', ':', 'b']⟩ attrsW "numerical" = (1, "g", "b") := by
  refine ⟨C6_theorem.1 "a" attrsW "numerical" (by decide) (by decide) (by decide) (by decide),
    C6_theorem.2.2.1 "b" attrsW "numerical" (by decide) (by decide) (by decide) (by decide),
    (C6_theorem.2.2.2.2 [Char.ofNat 98] attrsW "numerical").trans (by decide)⟩

/-! ### C5 -/

/-- C5: a range condition named `pct_counts_in_top_50_genes` with
bounds `(1/10, 9/10)`, when that name is absent from both numerical
catalogs, compiles to a single resolved predicate on the cell table
with bounds `(10, 90)` (and records the top-N request 50); and in
general a compiled condition's bounds are multiplied by 100 exactly
when the resolved bare name matches one of the two derived-metric
patterns, and are kept unchanged otherwise. -/
theorem C5_theorem :
    (∀ attrs : Attributes,
        attrs.c.numerical.contains "pct_counts_in_top_50_genes" = false →
        attrs.g.numerical.contains "pct_counts_in_top_50_genes" = false →
        getFilterConditions attrs [("pct_counts_in_top_50_genes", 1/10, 9/10)] [] [] =
          (⟨⟨[("pct_counts_in_top_50_genes", 10, 90)], [], []⟩, ⟨[], [], []⟩⟩, [], [50])) ∧
    (∀ (attrs : Attributes) (name : String) (a b : ℚ) (e : String × ℚ × ℚ),
        (e ∈ (getFilterConditions attrs [(name, a, b)] [] []).1.c.numerical ∨
          e ∈ (getFilterConditions attrs [(name, a, b)] [] []).1.g.numerical) →
        e = ((attributesExists name attrs "numerical").2.2,
          if (ptMatch (attributesExists name attrs "numerical").2.2).isSome
              || (qvMatch (attributesExists name attrs "numerical").2.2).isSome
          then (a * 100, b * 100) else (a, b))) := by
  constructor
  · intro attrs h1 h2
    have h0 : attributesExists "pct_counts_in_top_50_genes" attrs "numerical" =
        (0, "", "pct_counts_in_top_50_genes") := by
      have hpc : pyStartswith "pct_counts_in_top_50_genes" "c:" = false := by decide
      have hpg : pyStartswith "pct_counts_in_top_50_genes" "g:" = false := by decide
      simp at h1 h2
      simp [attributesExists, KindSets.get, h1, h2, hpc, hpg]
    simp [getFilterConditions, stepParam, h0]
    decide
  · intro attrs name a b e he
    rcases hr : attributesExists name attrs "numerical" with ⟨found, cat, bare⟩
    by_cases hf : 1 < found
    · simp [getFilterConditions, stepParam, hr, hf] at he
    · by_cases hl : found < 1
      · cases hpt : ptMatch bare with
        | some n =>
          simp [getFilterConditions, stepParam, hr, hf, hl, hpt, Conditions.addNum] at he
          simp [hr, hpt, he]
        | none =>
          cases hqv : qvMatch bare with
          | some v =>
            simp [getFilterConditions, stepParam, hr, hf, hl, hpt, hqv, Conditions.addNum] at he
            simp [hr, hpt, hqv, he]
          | none =>
            simp [getFilterConditions, stepParam, hr, hf, hl, hpt, hqv] at he
      · by_cases hcat : cat == "c"
        · cases hpt : ptMatch bare with
          | some n =>
            simp [getFilterConditions, stepParam, hr, hf, hl, hpt, Conditions.addNum, hcat] at he
            simp [hr, hpt, he]
          | none =>
            cases hqv : qvMatch bare with
            | some v =>
              simp [getFilterConditions, stepParam, hr, hf, hl, hpt, hqv, Conditions.addNum,
                hcat] at he
              simp [hr, hpt, hqv, he]
            | none =>
              simp [getFilterConditions, stepParam, hr, hf, hl, hpt, hqv, Conditions.addNum,
                hcat] at he
              simp [hr, hpt, hqv, he]
        · by_cases hcat2 : cat == "g"
          · cases hpt : ptMatch bare with
            | some n =>
              simp [getFilterConditions, stepParam, hr, hf, hl, hpt, Conditions.addNum, hcat,
                hcat2] at he
              simp [hr, hpt, he]
            | none =>
              cases hqv : qvMatch bare with
              | some v =>
                simp [getFilterConditions, stepParam, hr, hf, hl, hpt, hqv, Conditions.addNum,
                  hcat, hcat2] at he
                simp [hr, hpt, hqv, he]
              | none =>
                simp [getFilterConditions, stepParam, hr, hf, hl, hpt, hqv, Conditions.addNum,
                  hcat, hcat2] at he
                simp [hr, hpt, hqv, he]
          · simp [getFilterConditions, stepParam, hr, hf, hl, Conditions.addNum, hcat,
              hcat2] at he

/-- C5, witness: the concrete rescaling run on `dsRange`'s catalog, and
the unchanged bounds of the ordinary qualified condition
`(c:n_counts, 10, 100)`. -/
theorem C5_witness :
    ((getAttributes dsRange).c.numerical.contains "pct_counts_in_top_50_genes" = false ∧
      getFilterConditions (getAttributes dsRange)
          [("pct_counts_in_top_50_genes", 1/10, 9/10)] [] [] =
        (⟨⟨[("pct_counts_in_top_50_genes", 10, 90)], [], []⟩, ⟨[], [], []⟩⟩, [], [50])) ∧
    (("n_counts", (10 : ℚ), (100 : ℚ)) =
      ((attributesExists "c:n_counts" (getAttributes dsRange) "numerical").2.2,
        if (ptMatch (attributesExists "c:n_counts" (getAttributes dsRange) "numerical").2.2).isSome
            || (qvMatch
                (attributesExists "c:n_counts" (getAttributes dsRange) "numerical").2.2).isSome
        then ((10 : ℚ) * 100, (100 : ℚ) * 100) else (10, 100))) :=
  ⟨⟨by decide, C5_theorem.1 (getAttributes dsRange) (by decide) (by decide)⟩,
    C5_theorem.2 (getAttributes dsRange) "c:n_counts" 10 100 ("n_counts", 10, 100)
      (Or.inl (by decide))⟩

/-! ### C10 -/

/-- C10: a range condition whose name matches a derived-metric pattern
but resolves with match count 1 still has its bounds multiplied by 100,
records no derived-metric request, and is appended to the table the
name resolved to — which may be the feature table. -/
theorem C10_theorem (attrs : Attributes) (name : String) (a b : ℚ) (tag bare : String)
    (hr : attributesExists name attrs "numerical" = (1, tag, bare))
    (hm : (ptMatch bare).isSome = true ∨ (qvMatch bare).isSome = true) :
    (getFilterConditions attrs [(name, a, b)] [] []).2 = ([], []) ∧
    (getFilterConditions attrs [(name, a, b)] [] []).1 =
      Conditions.addNum ⟨⟨[], [], []⟩, ⟨[], [], []⟩⟩ tag (bare, a * 100, b * 100) := by
  have hb : ((ptMatch bare).isSome || (qvMatch bare).isSome) = true := by
    rcases hm with h | h <;> simp [h]
  constructor
  · simp [getFilterConditions, stepParam, hr, hb]
  · simp [getFilterConditions, stepParam, hr, hb]

/-- A catalog whose feature-table numerical set holds the
derived-metric-shaped name `pct_counts_mito`. -/
def attrsG : Attributes := ⟨⟨[], [], []⟩, ⟨["pct_counts_mito"], [], []⟩⟩

/-- C10, witness: on `attrsG` the condition `(pct_counts_mito, 2, 3)`
resolves to the feature table, is rescaled to `(200, 300)`, and records
no derived-metric request. -/
theorem C10_witness :
    attributesExists "pct_counts_mito" attrsG "numerical" = (1, "g", "pct_counts_mito") ∧
    ((getFilterConditions attrsG [("pct_counts_mito", 2, 3)] [] []).2 = ([], []) ∧
      (getFilterConditions attrsG [("pct_counts_mito", 2, 3)] [] []).1 =
        Conditions.addNum ⟨⟨[], [], []⟩, ⟨[], [], []⟩⟩ "g" ("pct_counts_mito", 2 * 100, 3 * 100)) :=
  ⟨by decide,
    C10_theorem attrsG "pct_counts_mito" 2 3 "g" "pct_counts_mito" (by decide)
      (Or.inr (by decide))⟩

/-! ### C8 -/

/-- Resolving an unqualified name present in both tables' sets yields
match count 2. -/
theorem attributesExists_both (name : String) (attrs : Attributes) (dtype : String)
    (h1 : pyStartswith name "c:" = false) (h2 : pyStartswith name "g:" = false)
    (h3 : (attrs.c.get dtype).contains name = true)
    (h4 : (attrs.g.get dtype).contains name = true) :
    attributesExists name attrs dtype = (2, "cg", name) := by
  simp at h3 h4
  simp [attributesExists, h1, h2, h3, h4]
  decide

/-- A range condition whose resolution is ambiguous leaves the compile
state unchanged. -/
theorem stepParam_found2 (attrs : Attributes) (st : CompileState) (name : String) (a b : ℚ)
    (h : 1 < (attributesExists name attrs "numerical").1) :
    stepParam attrs st (name, a, b) = st := by
  rcases hr : attributesExists name attrs "numerical" with ⟨found, cat, bare⟩
  rw [hr] at h
  simp only [] at h
  simp [stepParam, hr, h]

/-- A categorical/subset condition whose resolution is ambiguous leaves
the compile state unchanged. -/
theorem stepCat_found2 (attrs : Attributes) (st : CompileState) (name : String) (vals : CatValues)
    (h : 1 < (attributesExists name attrs "categorical").1) :
    stepCat attrs st (name, vals) = st := by
  rcases hr : attributesExists name attrs "categorical" with ⟨found, cat, bare⟩
  rw [hr] at h
  simp only [] at h
  simp [stepCat, hr, h, Nat.ne_of_gt h]

/-- Folding a step function over a list with an inert middle element
is folding over the list without it. -/
theorem foldl_middle_id {σ α : Type} {f : σ → α → σ} {x : α} (hx : ∀ s, f s x = s)
    (l1 l2 : List α) (s : σ) :
    List.foldl f s (l1 ++ x :: l2) = List.foldl f s (l1 ++ l2) := by
  rw [List.foldl_append, List.foldl_append, List.foldl_cons, hx]

/-- C8: a condition of any of the three channels whose unqualified name
resolves in both tables' catalogs is dropped: the compile result equals
the result with that condition removed (so it reaches neither table's
resolved-predicate list, no exception is raised — compilation is total
by construction — and the remaining conditions are processed
normally). -/
theorem C8_theorem :
    (∀ (attrs : Attributes) (p1 p2 : List (String × ℚ × ℚ)) (name : String) (a b : ℚ)
        (category subset : List (String × CatValues)),
      pyStartswith name "c:" = false → pyStartswith name "g:" = false →
      attrs.c.numerical.contains name = true → attrs.g.numerical.contains name = true →
      getFilterConditions attrs (p1 ++ (name, a, b) :: p2) category subset =
        getFilterConditions attrs (p1 ++ p2) category subset) ∧
    (∀ (attrs : Attributes) (param : List (String × ℚ × ℚ))
        (c1 c2 subset : List (String × CatValues)) (name : String) (vals : CatValues),
      pyStartswith name "c:" = false → pyStartswith name "g:" = false →
      attrs.c.categorical.contains name = true → attrs.g.categorical.contains name = true →
      getFilterConditions attrs param (c1 ++ (name, vals) :: c2) subset =
        getFilterConditions attrs param (c1 ++ c2) subset) ∧
    (∀ (attrs : Attributes) (param : List (String × ℚ × ℚ))
        (category s1 s2 : List (String × CatValues)) (name : String) (vals : CatValues),
      pyStartswith name "c:" = false → pyStartswith name "g:" = false →
      attrs.c.categorical.contains name = true → attrs.g.categorical.contains name = true →
      getFilterConditions attrs param category (s1 ++ (name, vals) :: s2) =
        getFilterConditions attrs param category (s1 ++ s2)) := by
  refine ⟨?_, ?_, ?_⟩
  · intro attrs p1 p2 name a b category subset h1 h2 h3 h4
    have hb : attributesExists name attrs "numerical" = (2, "cg", name) :=
      attributesExists_both name attrs "numerical" h1 h2 h3 h4
    simp only [getFilterConditions]
    rw [foldl_middle_id (fun s => stepParam_found2 attrs s name a b
      (by rw [hb]; exact Nat.one_lt_two)) p1 p2]
  · intro attrs param c1 c2 subset name vals h1 h2 h3 h4
    have hb : attributesExists name attrs "categorical" = (2, "cg", name) :=
      attributesExists_both name attrs "categorical" h1 h2 h3 h4
    simp only [getFilterConditions]
    rw [List.append_assoc, List.cons_append, List.append_assoc,
      foldl_middle_id (fun s => stepCat_found2 attrs s name vals
        (by rw [hb]; exact Nat.one_lt_two)) c1 (c2 ++ subset)]
  · intro attrs param category s1 s2 name vals h1 h2 h3 h4
    have hb : attributesExists name attrs "categorical" = (2, "cg", name) :=
      attributesExists_both name attrs "categorical" h1 h2 h3 h4
    simp only [getFilterConditions]
    rw [show category ++ (s1 ++ (name, vals) :: s2) = (category ++ s1) ++ (name, vals) :: s2 by
        rw [List.append_assoc],
      foldl_middle_id (fun s => stepCat_found2 attrs s name vals
        (by rw [hb]; exact Nat.one_lt_two)) (category ++ s1) s2,
      List.append_assoc]

/-- C8, witness: on `dsRange`'s catalog the ambiguous range condition
`n_counts` and the ambiguous categorical/subset condition `index` are
each dropped from compilation. -/
theorem C8_witness :
    getFilterConditions (getAttributes dsRange) [("n_counts", 10, 100)] [] [] =
      getFilterConditions (getAttributes dsRange) [] [] [] ∧
    getFilterConditions (getAttributes dsRange) []
        [("index", CatValues.inline ["cB"])] [] =
      getFilterConditions (getAttributes dsRange) [] [] [] ∧
    getFilterConditions (getAttributes dsRange) [] []
        [("index", CatValues.inline ["cB"])] =
      getFilterConditions (getAttributes dsRange) [] [] [] :=
  ⟨C8_theorem.1 (getAttributes dsRange) [] [] "n_counts" 10 100 [] []
      (by decide) (by decide) (by decide) (by decide),
    C8_theorem.2.1 (getAttributes dsRange) [] [] [] [] "index" (CatValues.inline ["cB"])
      (by decide) (by decide) (by decide) (by decide),
    C8_theorem.2.2 (getAttributes dsRange) [] [] [] [] "index" (CatValues.inline ["cB"])
      (by decide) (by decide) (by decide) (by decide)⟩

/-! ### C9 -/

/-- C9: when the compiled conditions request no derived metric (both
the feature-group list and the top-N list are empty), the filter pass
never invokes the external QC-computation collaborator: its result does
not depend on the collaborator at all. -/
theorem C9_theorem (qm1 qm2 : AnnData → List String → List Nat → AnnData)
    (adata : AnnData) (gene_name : String) (param : List (String × ℚ × ℚ))
    (category subset : List (String × CatValues))
    (h : (getFilterConditions (getAttributes (mitoStep adata gene_name))
        param category subset).2 = ([], [])) :
    filterAnndataWith qm1 adata gene_name false param category subset =
      filterAnndataWith qm2 adata gene_name false param category subset := by
  rcases hg : getFilterConditions (getAttributes (mitoStep adata gene_name))
      param category subset with ⟨conds, qcVars, pctTop⟩
  rw [hg] at h
  simp at h
  obtain ⟨rfl, rfl⟩ := h
  simp [filterAnndataWith, hg]

/-- C9, witness: on `dsRange` with the single ordinary condition
`(c:n_counts, 10, 100)` no request is recorded and the pass gives the
same result under the modelled collaborator and under a collaborator
that does nothing. -/
theorem C9_witness :
    (getFilterConditions (getAttributes (mitoStep dsRange ""))
        [("c:n_counts", 10, 100)] [] []).2 = ([], []) ∧
    filterAnndataWith calculateQcMetrics dsRange "" false [("c:n_counts", 10, 100)] [] [] =
      filterAnndataWith (fun a _ _ => a) dsRange "" false [("c:n_counts", 10, 100)] [] [] :=
  ⟨by decide,
    C9_theorem calculateQcMetrics (fun a _ _ => a) dsRange "" [("c:n_counts", 10, 100)] [] []
      (by decide)⟩

/-! ### C2, amended -/

/-- In a column list with distinct names, a name determines its
column. -/
theorem keys_col_eq : ∀ {l : List (String × Column)}, (l.map (fun p => p.1)).Nodup →
    ∀ {x : String} {c1 c2 : Column}, (x, c1) ∈ l → (x, c2) ∈ l → c1 = c2 := by
  intro l
  induction l with
  | nil => intro _ x c1 c2 h1 _; cases h1
  | cons hd tl ih =>
    intro hnd x c1 c2 h1 h2
    simp only [List.map_cons, List.nodup_cons] at hnd
    rcases List.mem_cons.mp h1 with e1 | m1 <;> rcases List.mem_cons.mp h2 with e2 | m2
    · exact (Prod.mk.inj (e1.trans e2.symm)).2
    · exfalso
      apply hnd.1
      rw [← e1]
      exact List.mem_map_of_mem (fun p => p.1) m2
    · exfalso
      apply hnd.1
      rw [← e2]
      exact List.mem_map_of_mem (fun p => p.1) m1
    · exact ih hnd.2 m1 m2

/-- A category dtype with boolean categories has numpy kind `O`. -/
theorem catBoolean_kind {d : Dtype} (h : d.catBoolean = true) : d.kind = 'O' := by
  cases d <;> simp_all [Dtype.catBoolean, Dtype.kind]

/-- A name classified numerical by dtype kind is classified neither
categorical nor boolean, provided column names are distinct. -/
theorem class_disjoint (cols : List (String × Column))
    (hnd : (cols.map (fun p => p.1)).Nodup) (x : String) (hx : x ∈ classNumerical cols) :
    x ∉ classCategorical cols ∧ x ∉ classBool cols := by
  simp only [classNumerical, List.mem_map, List.mem_filter] at hx
  obtain ⟨p1, ⟨hm1, hk1⟩, he1⟩ := hx
  constructor
  · intro hc
    simp only [classCategorical, List.mem_map, List.mem_filter] at hc
    obtain ⟨p2, ⟨hm2, hk2⟩, he2⟩ := hc
    have hcc : p1.2 = p2.2 := by
      apply keys_col_eq hnd (x := x)
      · rw [← he1]; exact hm1
      · rw [← he2]; exact hm2
    simp at hk1 hk2
    rw [hcc, hk2] at hk1
    rcases hk1 with h | h <;> exact absurd h (by decide)
  · intro hb
    simp only [classBool, List.mem_map, List.mem_filter] at hb
    obtain ⟨p2, ⟨hm2, hk2⟩, he2⟩ := hb
    have hcc : p1.2 = p2.2 := by
      apply keys_col_eq hnd (x := x)
      · rw [← he1]; exact hm1
      · rw [← he2]; exact hm2
    simp at hk1 hk2
    rcases hk2 with h2 | h2
    · rw [hcc, h2] at hk1
      rcases hk1 with h | h <;> exact absurd h (by decide)
    · have := catBoolean_kind h2
      rw [hcc, this] at hk1
      rcases hk1 with h | h <;> exact absurd h (by decide)

theorem classNumerical_sub {cols : List (String × Column)} {x : String}
    (h : x ∈ classNumerical cols) : x ∈ cols.map (fun p => p.1) := by
  simp only [classNumerical, List.mem_map, List.mem_filter] at h ⊢
  obtain ⟨p, ⟨hm, _⟩, he⟩ := h
  exact ⟨p, hm, he⟩

theorem classCategorical_sub {cols : List (String × Column)} {x : String}
    (h : x ∈ classCategorical cols) : x ∈ cols.map (fun p => p.1) := by
  simp only [classCategorical, List.mem_map, List.mem_filter] at h ⊢
  obtain ⟨p, ⟨hm, _⟩, he⟩ := h
  exact ⟨p, hm, he⟩

theorem classBool_sub {cols : List (String × Column)} {x : String}
    (h : x ∈ classBool cols) : x ∈ cols.map (fun p => p.1) := by
  simp only [classBool, List.mem_map, List.mem_filter] at h ⊢
  obtain ⟨p, ⟨hm, _⟩, he⟩ := h
  exact ⟨p, hm, he⟩

/-- C2, amended: the numerical set of each table is disjoint from that
table's categorical and boolean sets whenever the table's column names
are distinct and avoid the seeded pseudo-attribute `index`, the
synthetic numerical names, and (on the cell table) the synthetic
`pct_counts_*` names; but the categorical and boolean sets are not
disjoint in general — a category-dtype column with a boolean category
set is classified into both. -/
theorem C2_theorem (a : AnnData)
    (hndc : a.obs.keys.Nodup)
    (hsc : ∀ n ∈ a.obs.keys, n ≠ "index" ∧ n ≠ "n_genes" ∧ n ≠ "n_counts")
    (hp : ∀ b ∈ classBool a.var.cols,
        ("pct_counts_" ++ b) ∉ a.obs.keys ∧ ("pct_counts_" ++ b) ++ "*" ∉ a.obs.keys)
    (hndg : a.var.keys.Nodup)
    (hsg : ∀ n ∈ a.var.keys, n ≠ "index" ∧ n ≠ "n_cells" ∧ n ≠ "n_counts" ∧
        n ≠ "mean_counts" ∧ n ≠ "pct_dropout_by_counts") :
    (∀ x ∈ (getAttributes a).c.numerical,
        x ∉ (getAttributes a).c.categorical ∧ x ∉ (getAttributes a).c.boolS) ∧
    (∀ x ∈ (getAttributes a).g.numerical,
        x ∉ (getAttributes a).g.categorical ∧ x ∉ (getAttributes a).g.boolS) := by
  simp only [Table.keys] at hndc hsc hp hndg hsg
  constructor
  · intro x hx
    have hcat : ∀ y, y ∈ (getAttributes a).c.categorical →
        y = "index" ∨ y ∈ classCategorical a.obs.cols := by
      intro y hy
      simpa [getAttributes] using hy
    have hboo : ∀ y, y ∈ (getAttributes a).c.boolS → y ∈ classBool a.obs.cols := by
      intro y hy
      simpa [getAttributes] using hy
    simp [getAttributes] at hx
    rcases hx with h1 | rfl | rfl | ⟨b, hbmem, hbeq⟩
    · have hd := class_disjoint a.obs.cols hndc x h1
      have hk := classNumerical_sub h1
      constructor
      · intro hc
        rcases hcat x hc with he | hm
        · exact (hsc x hk).1 he
        · exact hd.1 hm
      · intro hb
        exact hd.2 (hboo x hb)
    · constructor
      · intro hc
        rcases hcat _ hc with he | hm
        · exact absurd he (by decide)
        · exact (hsc _ (classCategorical_sub hm)).2.1 rfl
      · intro hb
        exact (hsc _ (classBool_sub (hboo _ hb))).2.1 rfl
    · constructor
      · intro hc
        rcases hcat _ hc with he | hm
        · exact absurd he (by decide)
        · exact (hsc _ (classCategorical_sub hm)).2.2 rfl
      · intro hb
        exact (hsc _ (classBool_sub (hboo _ hb))).2.2 rfl
    · have hpb := hp b hbmem
      have hx2 : pctName a.obs.keys b = ("pct_counts_" ++ b) ++ "*" := by
        have hnm : ("pct_counts_" ++ b) ∉ a.obs.keys := by
          simpa [Table.keys] using hpb.1
        simp [pctName, hnm]
      rw [hx2] at hbeq
      subst hbeq
      constructor
      · intro hc
        rcases hcat _ hc with he | hm
        · have hlen := congrArg String.length he
          have h11 : ("pct_counts_" : String).length = 11 := rfl
          have h1s : ("*" : String).length = 1 := rfl
          have h5 : ("index" : String).length = 5 := rfl
          simp [String.length_append, h11, h1s, h5] at hlen
          omega
        · exact hpb.2 (classCategorical_sub hm)
      · intro hb2
        exact hpb.2 (classBool_sub (hboo _ hb2))
  · intro x hx
    have hcat : ∀ y, y ∈ (getAttributes a).g.categorical →
        y = "index" ∨ y ∈ classCategorical a.var.cols := by
      intro y hy
      simpa [getAttributes] using hy
    have hboo : ∀ y, y ∈ (getAttributes a).g.boolS → y ∈ classBool a.var.cols := by
      intro y hy
      simpa [getAttributes] using hy
    simp [getAttributes] at hx
    rcases hx with h1 | rfl | rfl | rfl | rfl
    · have hd := class_disjoint a.var.cols hndg x h1
      have hk := classNumerical_sub h1
      constructor
      · intro hc
        rcases hcat x hc with he | hm
        · exact (hsg x hk).1 he
        · exact hd.1 hm
      · intro hb
        exact hd.2 (hboo x hb)
    · constructor
      · intro hc
        rcases hcat _ hc with he | hm
        · exact absurd he (by decide)
        · exact (hsg _ (classCategorical_sub hm)).2.1 rfl
      · intro hb
        exact (hsg _ (classBool_sub (hboo _ hb))).2.1 rfl
    · constructor
      · intro hc
        rcases hcat _ hc with he | hm
        · exact absurd he (by decide)
        · exact (hsg _ (classCategorical_sub hm)).2.2.1 rfl
      · intro hb
        exact (hsg _ (classBool_sub (hboo _ hb))).2.2.1 rfl
    · constructor
      · intro hc
        rcases hcat _ hc with he | hm
        · exact absurd he (by decide)
        · exact (hsg _ (classCategorical_sub hm)).2.2.2.1 rfl
      · intro hb
        exact (hsg _ (classBool_sub (hboo _ hb))).2.2.2.1 rfl
    · constructor
      · intro hc
        rcases hcat _ hc with he | hm
        · exact absurd he (by decide)
        · exact (hsg _ (classCategorical_sub hm)).2.2.2.2 rfl
      · intro hb
        exact (hsg _ (classBool_sub (hboo _ hb))).2.2.2.2 rfl

/-- C2, witness: the amended disjointness on `dsCatBool`, instantiated
at the synthetic numerical attribute `n_genes`. -/
theorem C2_witness :
    dsCatBool.obs.keys.Nodup ∧
    ("n_genes" ∉ (getAttributes dsCatBool).c.categorical ∧
      "n_genes" ∉ (getAttributes dsCatBool).c.boolS) ∧
    ("n_cells" ∉ (getAttributes dsCatBool).g.categorical ∧
      "n_cells" ∉ (getAttributes dsCatBool).g.boolS) :=
  ⟨by decide,
    (C2_theorem dsCatBool (by decide) (by decide) (by decide) (by decide) (by decide)).1
      "n_genes" (by decide),
    (C2_theorem dsCatBool (by decide) (by decide) (by decide) (by decide) (by decide)).2
      "n_cells" (by decide)⟩

/-! ### C7 -/

/-- Well-formedness of a dataset: the matrix is `obs.nrows × var.nrows`
and every index and column has its table's row count. -/
def AnnData.WF (a : AnnData) : Prop :=
  a.X.length = a.obs.nrows ∧
  (∀ r ∈ a.X, r.length = a.var.nrows) ∧
  a.obs.index.length = a.obs.nrows ∧
  (∀ p ∈ a.obs.cols, p.2.values.length = a.obs.nrows) ∧
  a.var.index.length = a.var.nrows ∧
  (∀ p ∈ a.var.cols, p.2.values.length = a.var.nrows)

theorem optMapList_length {α β : Type} {f : α → Option β} :
    ∀ {l : List α} {r : List β}, optMapList f l = some r → r.length = l.length := by
  intro l
  induction l with
  | nil => intro r h; cases h; rfl
  | cons x xs ih =>
    intro r h
    unfold optMapList at h
    cases hx : f x with
    | none => rw [hx] at h; cases h
    | some y =>
      rw [hx] at h
      cases hxs : optMapList f xs with
      | none => rw [hxs] at h; cases h
      | some ys =>
        rw [hxs] at h
        cases h
        simp [ih hxs]

theorem lookupCol_values_length {t : Table}
    (hc : ∀ p ∈ t.cols, p.2.values.length = t.nrows) {name : String} {col : Column}
    (h : t.lookupCol name = some col) : col.values.length = t.nrows := by
  unfold Table.lookupCol at h
  cases hf : t.cols.find? (fun p => p.1 == name) with
  | none => rw [hf] at h; cases h
  | some p =>
    rw [hf] at h
    cases h
    exact hc p (List.mem_of_find?_eq_some hf)

theorem getStrCol_length {t : Table}
    (hi : t.index.length = t.nrows) (hc : ∀ p ∈ t.cols, p.2.values.length = t.nrows)
    {g : String} {names : List String} (h : t.getStrCol g = some names) :
    names.length = t.nrows := by
  unfold Table.getStrCol at h
  split at h
  · cases h; exact hi
  · cases hl : t.lookupCol g with
    | none => rw [hl] at h; cases h
    | some col =>
      rw [hl] at h
      rw [optMapList_length h]
      exact lookupCol_values_length hc hl

theorem numColQ_length {t : Table}
    (hc : ∀ p ∈ t.cols, p.2.values.length = t.nrows) {name : String} {vs : List ℚ}
    (h : t.numColQ name = some vs) : vs.length = t.nrows := by
  unfold Table.numColQ at h
  cases hl : t.lookupCol name with
  | none => rw [hl] at h; cases h
  | some col =>
    rw [hl] at h
    simp at h
    rw [optMapList_length h]
    exact lookupCol_values_length hc hl

theorem getattrVals_length {t : Table}
    (hi : t.index.length = t.nrows) (hc : ∀ p ∈ t.cols, p.2.values.length = t.nrows)
    {name : String} {vs : List Value} (h : t.getattrVals name = some vs) :
    vs.length = t.nrows := by
  unfold Table.getattrVals at h
  split at h
  · cases h; simp [hi]
  · cases hl : t.lookupCol name with
    | none => rw [hl] at h; cases h
    | some col =>
      rw [hl] at h
      cases h
      exact lookupCol_values_length hc hl

theorem length_maskFilter {α : Type} :
    ∀ (m : List Bool) (xs : List α), xs.length = m.length →
      (maskFilter m xs).length = m.count true := by
  intro m
  induction m with
  | nil => intro xs h; simp [maskFilter]
  | cons b m ih =>
    intro xs h
    cases xs with
    | nil => simp at h
    | cons x xs =>
      simp at h
      cases b with
      | true => simp [maskFilter, List.count_cons] at ih ⊢; rw [ih xs h]
      | false => simp [maskFilter, List.count_cons] at ih ⊢; rw [ih xs h]

theorem maskFilter_sublist {α : Type} :
    ∀ (m : List Bool) (xs : List α), List.Sublist (maskFilter m xs) xs := by
  intro m
  induction m with
  | nil => intro xs; simp [maskFilter]
  | cons b m ih =>
    intro xs
    cases xs with
    | nil => simp [maskFilter]
    | cons x xs =>
      cases b with
      | true => simpa [maskFilter] using List.Sublist.cons₂ x (ih xs)
      | false => simpa [maskFilter] using List.Sublist.cons x (ih xs)

theorem foldlM_option_inv {σ α : Type} {step : σ → α → Option σ} {P : σ → Prop}
    (hstep : ∀ s x s', P s → step s x = some s' → P s') :
    ∀ (l : List α) (s s' : σ), P s → List.foldlM step s l = some s' → P s' := by
  intro l
  induction l with
  | nil => intro s s' hp h; cases h; exact hp
  | cons x xs ih =>
    intro s s' hp h
    rw [List.foldlM_cons] at h
    cases hx : step s x with
    | none => rw [hx] at h; cases h
    | some s1 =>
      rw [hx] at h
      exact ih s1 s' (hstep s x s1 hp hx) h

theorem buildMask_length {t : Table} {cs : CondSets}
    (hi : t.index.length = t.nrows) (hc : ∀ p ∈ t.cols, p.2.values.length = t.nrows)
    {k : List Bool} (h : buildMask t cs = some k) : k.length = t.nrows := by
  unfold buildMask at h
  cases h1 : List.foldlM (numStep t) (List.replicate t.nrows true) cs.numerical with
  | none => rw [h1] at h; cases h
  | some k1 =>
    rw [h1] at h
    have hk1 : k1.length = t.nrows := by
      apply foldlM_option_inv (P := fun s => s.length = t.nrows) ?_ cs.numerical
        (List.replicate t.nrows true) k1 (by simp) h1
      intro s e s' hp hstep
      unfold numStep at hstep
      cases hv : t.numColQ e.1 with
      | none => rw [hv] at hstep; cases hstep
      | some vs =>
        rw [hv] at hstep
        cases hstep
        simp [List.length_zipWith, hp, numColQ_length hc hv]
    apply foldlM_option_inv (P := fun s => s.length = t.nrows) ?_ cs.categorical k1 k hk1 h
    intro s e s' hp hstep
    unfold catStep at hstep
    cases hv : t.getattrVals e.1 with
    | none => rw [hv] at hstep; cases hstep
    | some vs =>
      rw [hv] at hstep
      cases hstep
      simp [List.length_zipWith, hp, getattrVals_length hi hc hv]

theorem mitoStep_pres {a : AnnData} (g : String) (h : a.WF) :
    (mitoStep a g).WF ∧ (mitoStep a g).obs = a.obs ∧
    (mitoStep a g).var.index = a.var.index ∧ (mitoStep a g).var.nrows = a.var.nrows ∧
    (mitoStep a g).X = a.X := by
  obtain ⟨h1, h2, h3, h4, h5, h6⟩ := h
  unfold mitoStep
  split
  · cases hs : a.var.getStrCol g with
    | none => exact ⟨⟨h1, h2, h3, h4, h5, h6⟩, rfl, rfl, rfl, rfl⟩
    | some names =>
      dsimp only
      split
      · refine ⟨⟨h1, h2, h3, h4, h5, ?_⟩, rfl, rfl, rfl, rfl⟩
        intro p hp
        simp [Table.addCol] at hp
        rcases hp with hp | hp
        · exact h6 p hp
        · subst hp
          simp [Table.addCol, getStrCol_length h5 h6 hs]
      · exact ⟨⟨h1, h2, h3, h4, h5, h6⟩, rfl, rfl, rfl, rfl⟩
  · exact ⟨⟨h1, h2, h3, h4, h5, h6⟩, rfl, rfl, rfl, rfl⟩

theorem seedCol_pres {t : Table} {s : String} {v : List ℚ} {n : Nat}
    (hn : t.nrows = n)
    (hc : ∀ p ∈ t.cols, p.2.values.length = n) (hv : v.length = n) :
    (seedCol t s v).nrows = n ∧ (seedCol t s v).index = t.index ∧
    (∀ p ∈ (seedCol t s v).cols, p.2.values.length = n) := by
  unfold seedCol
  split
  · exact ⟨hn, rfl, hc⟩
  · refine ⟨hn, rfl, ?_⟩
    intro p hp
    simp [Table.addCol] at hp
    rcases hp with hp | hp
    · exact hc p hp
    · subst hp
      simp [hv]

theorem seedAll_pres {a : AnnData} (h : a.WF) :
    (seedAll a).WF ∧ (seedAll a).obs.index = a.obs.index ∧
    (seedAll a).obs.nrows = a.obs.nrows ∧
    (seedAll a).var.index = a.var.index ∧ (seedAll a).var.nrows = a.var.nrows ∧
    (seedAll a).X = a.X := by
  obtain ⟨h1, h2, h3, h4, h5, h6⟩ := h
  have o1 := @seedCol_pres a.obs "n_genes"
    (a.X.map (fun r => ((r.filter (fun q => q != 0)).length : ℚ)))
    a.obs.nrows rfl h4 (by simp [h1])
  have o2 := @seedCol_pres _ "n_counts" (a.X.map (fun r => r.sum))
    a.obs.nrows o1.1 o1.2.2 (by simp [h1])
  have v1 := @seedCol_pres a.var "n_cells"
    ((List.range a.var.nrows).map
      (fun j => ((a.X.filter (fun r => r.getD j 0 != 0)).length : ℚ)))
    a.var.nrows rfl h6 (by simp)
  have v2 := @seedCol_pres _ "n_counts"
    ((List.range a.var.nrows).map (fun j => (a.X.map (fun r => r.getD j 0)).sum))
    a.var.nrows v1.1 v1.2.2 (by simp)
  unfold seedAll
  dsimp only
  refine ⟨⟨?_, ?_, ?_, ?_, ?_, ?_⟩, ?_, ?_, ?_, ?_, ?_⟩
  · rw [o2.1]; exact h1
  · intro r hr; rw [v2.1]; exact h2 r hr
  · rw [o2.1, o2.2.1, o1.2.1]; exact h3
  · intro p hp; rw [o2.1]; exact o2.2.2 p hp
  · rw [v2.1, v2.2.1, v1.2.1]; exact h5
  · intro p hp; rw [v2.1]; exact v2.2.2 p hp
  · rw [o2.2.1, o1.2.1]
  · exact o2.1
  · rw [v2.2.1, v1.2.1]
  · exact v2.1
  · rfl

theorem seedFold_pres {α : Type} (f : α → String) (g : α → List ℚ) {n : Nat}
    (hg : ∀ x, (g x).length = n) :
    ∀ (l : List α) (t : Table), t.nrows = n → (∀ p ∈ t.cols, p.2.values.length = n) →
      (l.foldl (fun tt x => seedCol tt (f x) (g x)) t).nrows = n ∧
      (l.foldl (fun tt x => seedCol tt (f x) (g x)) t).index = t.index ∧
      (∀ p ∈ (l.foldl (fun tt x => seedCol tt (f x) (g x)) t).cols,
        p.2.values.length = n) := by
  intro l
  induction l with
  | nil => intro t h1 h2; exact ⟨h1, rfl, h2⟩
  | cons x xs ih =>
    intro t h1 h2
    rw [List.foldl_cons]
    have hx := @seedCol_pres t (f x) (g x) n h1 h2 (hg x)
    have hr := ih (seedCol t (f x) (g x)) hx.1 hx.2.2
    exact ⟨hr.1, hr.2.1.trans hx.2.1, hr.2.2⟩

theorem calculateQcMetrics_pres {a : AnnData} (qcVars : List String) (pctTop : List Nat)
    (h : a.WF) :
    (calculateQcMetrics a qcVars pctTop).WF ∧
    (calculateQcMetrics a qcVars pctTop).obs.index = a.obs.index ∧
    (calculateQcMetrics a qcVars pctTop).obs.nrows = a.obs.nrows ∧
    (calculateQcMetrics a qcVars pctTop).var = a.var ∧
    (calculateQcMetrics a qcVars pctTop).X = a.X := by
  obtain ⟨h1, h2, h3, h4, h5, h6⟩ := h
  unfold calculateQcMetrics
  dsimp only
  have f1 := seedFold_pres (f := fun v => "pct_counts_" ++ v)
    (g := fun v =>
      a.X.map (fun r =>
        let tot := r.sum
        let part := (((r.zip (match a.var.lookupCol v with
          | some col => col.values.map (fun x => x == Value.bool true)
          | none => List.replicate a.var.nrows false)).filter
            (fun p => p.2)).map (fun p => p.1)).sum
        if tot == 0 then 0 else 100 * part / tot))
    (n := a.obs.nrows) (fun v => by simp [h1]) qcVars a.obs rfl h4
  have f2 := seedFold_pres (f := fun n => "pct_counts_in_top_" ++ toString n ++ "_genes")
    (g := fun n =>
      a.X.map (fun r =>
        let tot := r.sum
        let top := ((List.insertionSort (fun x y => y ≤ x) r).take n).sum
        if tot == 0 then 0 else 100 * top / tot))
    (n := a.obs.nrows) (fun n => by simp [h1]) pctTop _ f1.1 f1.2.2
  refine ⟨⟨?_, ?_, ?_, ?_, ?_, ?_⟩, ?_, ?_, ?_, ?_⟩
  · rw [f2.1]; exact h1
  · exact h2
  · rw [f2.1, f2.2.1, f1.2.1]; exact h3
  · intro p hp; rw [f2.1]; exact f2.2.2 p hp
  · exact h5
  · exact h6
  · rw [f2.2.1, f1.2.1]
  · exact f2.1
  · rfl
  · rfl

/-- C7: for every well-formed dataset and every combination of
predicates, when the filter pass returns a dataset its matrix has
exactly as many rows as the filtered cell table and every matrix row
has exactly as many entries as the filtered feature table has rows, and
each table's surviving index labels form a sublist (original relative
order) of the input's. -/
theorem C7_theorem (adata : AnnData) (gene_name : String) (param : List (String × ℚ × ℚ))
    (category subset : List (String × CatValues)) (aOut : AnnData) (r : FilterReturn)
    (hwf : adata.WF)
    (hr : filterAnndata adata gene_name false param category subset = some (aOut, r)) :
    aOut.X.length = aOut.obs.nrows ∧
    (∀ row ∈ aOut.X, row.length = aOut.var.nrows) ∧
    List.Sublist aOut.obs.index adata.obs.index ∧
    List.Sublist aOut.var.index adata.var.index := by
  have p1 := mitoStep_pres gene_name hwf
  have p2 := seedAll_pres p1.1
  rcases hg : getFilterConditions (getAttributes (mitoStep adata gene_name))
      param category subset with ⟨conds, qcVars, pctTop⟩
  simp only [filterAnndata, filterAnndataWith, hg] at hr
  rw [if_neg (by decide)] at hr
  generalize ha3 : (if (qcVars != [] || pctTop != []) = true then
      calculateQcMetrics (seedAll (mitoStep adata gene_name)) qcVars
        (if (pctTop == []) = true then [50] else pctTop)
    else seedAll (mitoStep adata gene_name)) = a3 at hr
  have q3 : a3.WF ∧ a3.obs.index = adata.obs.index ∧ a3.var.index = adata.var.index := by
    rw [← ha3]
    split
    · have p3 := calculateQcMetrics_pres qcVars
        (if (pctTop == []) = true then [50] else pctTop) p2.1
      refine ⟨p3.1, ?_, ?_⟩
      · rw [p3.2.1, p2.2.1, p1.2.1]
      · rw [congrArg Table.index p3.2.2.2.1, p2.2.2.2.1, p1.2.2.1]
    · exact ⟨p2.1, p2.2.1.trans (congrArg Table.index p1.2.1),
        p2.2.2.2.1.trans p1.2.2.1⟩
  obtain ⟨w1, w2, w3, w4, w5, w6⟩ := q3.1
  cases hbc : buildMask a3.obs conds.c with
  | none => rw [hbc] at hr; simp at hr
  | some kc =>
    cases hbg : buildMask a3.var conds.g with
    | none => rw [hbc, hbg] at hr; simp at hr
    | some kg =>
      rw [hbc, hbg] at hr
      have hkc := buildMask_length w3 w4 hbc
      have hkg := buildMask_length w5 w6 hbg
      obtain ⟨ha, hrr⟩ := Prod.mk.inj (Option.some.inj hr)
      subst ha
      refine ⟨?_, ?_, ?_, ?_⟩
      · simp only [Table.subset, List.length_map]
        exact length_maskFilter kc a3.X (w1.trans hkc.symm)
      · intro row hrow
        simp only [List.mem_map] at hrow
        obtain ⟨row0, h0, hrw⟩ := hrow
        subst hrw
        have hm : row0 ∈ a3.X := (maskFilter_sublist kc a3.X).subset h0
        simp only [Table.subset]
        exact length_maskFilter kg row0 ((w2 row0 hm).trans hkg.symm)
      · simp only [Table.subset]
        exact q3.2.1 ▸ maskFilter_sublist kc a3.obs.index
      · simp only [Table.subset]
        exact q3.2.2 ▸ maskFilter_sublist kg a3.var.index

/-- The expected output of the filter run used as the C7 witness. -/
def aOutC7 : AnnData :=
  { obs :=
      { nrows := 1, index := ["cB"],
        cols := [("n_counts", ⟨Dtype.floatK, [Value.num 50]⟩),
                 ("n_genes", ⟨Dtype.floatK, [Value.num 1]⟩)] }
    var :=
      { nrows := 1, index := ["g1"],
        cols := [("n_cells", ⟨Dtype.floatK, [Value.num 3]⟩),
                 ("n_counts", ⟨Dtype.floatK, [Value.num 3]⟩)] }
    X := [[1]] }

/-- C7, witness: the invariant instantiated on the concrete filter run
of `dsRange` with the condition `(c:n_counts, 10, 100)`. -/
theorem C7_witness :
    dsRange.WF ∧
    aOutC7.X.length = aOutC7.obs.nrows ∧
    List.Sublist aOutC7.obs.index dsRange.obs.index ∧
    List.Sublist aOutC7.var.index dsRange.var.index :=
  ⟨by unfold AnnData.WF; decide,
    (C7_theorem dsRange "" [("c:n_counts", 10, 100)] [] [] aOutC7 FilterReturn.dataset
        (by unfold AnnData.WF; decide) (by decide)).1,
    (C7_theorem dsRange "" [("c:n_counts", 10, 100)] [] [] aOutC7 FilterReturn.dataset
        (by unfold AnnData.WF; decide) (by decide)).2.2.1,
    (C7_theorem dsRange "" [("c:n_counts", 10, 100)] [] [] aOutC7 FilterReturn.dataset
        (by unfold AnnData.WF; decide) (by decide)).2.2.2⟩
